import Mathlib

/-!
Verification of the q3-stats-bot core (src/main.rs): the match-report data
model, the event-loop document parser `parse_content`, the `escape_markdown`
character escaper, and the `format_match_report` formatter.

The XML scanner itself (the `quick_xml` crate) is an external library; we
model its output as a finite stream of structural events (`XmlEvent`), the
exact boundary consumed by the `parse_content` loop.  Machine integers
(`u32`) are modelled as `Nat`; where the source multiplies two `u32` values
the result is reduced modulo 2^32, matching release-mode wrap-around
semantics.
-/

namespace Q3

/-- The eight denylisted statistic names (static `BANNED_STATS` array). -/
def BANNED_STATS : List String :=
  ["MH", "RA", "YA", "GA", "Quad", "Haste", "Blue Flag", "Red Flag"]

/-- Rust `struct Weapon`: name plus three `u32` counters. -/
structure Weapon where
  name : String := ""
  hits : Nat := 0
  shots : Nat := 0
  kills : Nat := 0
  deriving Repr, DecidableEq

/-- Rust `struct Player`: name, ordered statistic pairs, ordered weapons. -/
structure Player where
  name : String := ""
  stats : List (String × String) := []
  weapons : List Weapon := []
  deriving Repr, DecidableEq

/-- Rust `struct Team`: score label and ordered players. -/
structure Team where
  score : String := ""
  players : List Player := []
  deriving Repr, DecidableEq

/-- Rust `struct Match`: map, type and duration labels, team-game flag, teams. -/
structure Match where
  map : String := ""
  match_type : String := ""
  duration : String := ""
  is_team_game : Bool := false
  teams : List Team := []
  deriving Repr, DecidableEq

/-- The set of characters escaped by `escape_markdown` (the match arm listing
the Telegram MarkdownV2 reserved characters). -/
def isReserved (c : Char) : Bool :=
  match c with
  | '*' | '_' | '[' | ']' | '(' | ')' | '~' | '>' | '#' | '+' | '-' | '='
  | '|' | '\x7b' | '\x7d' | '.' | '!' => true
  | _ => false

/-- Function `escape_markdown`: walk the characters, pushing a backslash before each
reserved character, then the character itself. -/
def escape_markdown (message : String) : String :=
  message.data.foldl
    (fun escaped_message c =>
      (if isReserved c then escaped_message.push '\x5c' else escaped_message).push c)
    ""

/-- List-level form of the escaping loop, used for reasoning. -/
def escapeChars : List Char → List Char
  | [] => []
  | c :: rest => (if isReserved c then ['\x5c', c] else [c]) ++ escapeChars rest

/-- Modelled from the spec: the escaping rule stated in its own words — every
reserved character is prefixed with the escape character, every other
character passes through unchanged. -/
def escapeSpec (s : String) : String :=
  String.mk ((s.data.map (fun c => if isReserved c then ['\x5c', c] else [c])).flatten)

/-- The per-weapon accuracy computed inline by `format_match_report`.
The product `w.hits * 100` is a `u32` multiplication and wraps modulo 2^32. -/
def accuracy (w : Weapon) : Nat :=
  if w.hits ≥ w.shots ∧ w.hits > 0 then 100
  else if w.shots > 0 then ((w.hits * 100) % 4294967296) / w.shots
  else 0

/-- Modelled from the spec: the accuracy formula in the words of the spec,
with exact (unbounded) arithmetic: 100 if hits ≥ shots and hits > 0, else
floor(hits × 100 / shots) if shots > 0, else 0. -/
def spec_accuracy (w : Weapon) : Nat :=
  if w.hits ≥ w.shots ∧ w.hits > 0 then 100
  else if w.shots > 0 then (w.hits * 100) / w.shots
  else 0

/-- One weapon line of the report
(`"{}: Shots: {} \\| Acc. {}% \\| Kills: {}\n"`). -/
def formatWeapon (w : Weapon) : String :=
  escape_markdown w.name ++ ": Shots: " ++ toString w.shots ++ " \\| Acc. " ++
    toString (accuracy w) ++ "% \\| Kills: " ++ toString w.kills ++ "\n"

/-- One statistic line of the report (`"{}: {}\n"`). -/
def formatStat (nv : String × String) : String :=
  escape_markdown nv.1 ++ ": " ++ escape_markdown nv.2 ++ "\n"

/-- One fenced player block: verbatim player name, statistic lines, and the
weapon list when non-empty. -/
def formatPlayer (p : Player) : String :=
  "```\nPlayer: " ++ p.name ++ "\n" ++
    String.join (p.stats.map formatStat) ++
    (if p.weapons.isEmpty then "" else "Weapons: \n" ++ String.join (p.weapons.map formatWeapon)) ++
    "```\n"

/-- Positional team label: index 0 is "Team One", any other index "Team Two". -/
def teamLabel (i : Nat) : String :=
  if i = 0 then "Team One" else "Team Two"

/-- One team block: the label line (only in team games) then the players. -/
def formatTeam (is_team_game : Bool) (i : Nat) (t : Team) : String :=
  (if is_team_game then "*" ++ teamLabel i ++ "*: *" ++ escape_markdown t.score ++ "*\n" else "") ++
    String.join (t.players.map formatPlayer)

/-- Function `format_match_report`: fixed header, escaped summary line, then one block
per team in stored order. -/
def format_match_report (m : Match) : String :=
  "*Match concluded*\n" ++
    "Map: " ++ escape_markdown m.map ++ " \\| Type: " ++ escape_markdown m.match_type ++
    " \\| Duration: " ++ escape_markdown m.duration ++ "\n\n" ++
    String.join (m.teams.enum.map (fun it => formatTeam m.is_team_game it.1 it.2))

/-- Structural events delivered by the XML reader, the boundary at which the
`parse_content` loop consumes the document.  `err` stands for the reader
reporting a scan error at a position; `other` covers every event kind the
loop ignores (text, comments, declarations, …).  End of input is the end of
the list (`Event::Eof` breaks the loop). -/
inductive XmlEvent where
  | start (name : String) (attrs : List (String × String))
  | endEl (name : String)
  | empty (name : String) (attrs : List (String × String))
  | err (position : Nat) (message : String)
  | other
  deriving Repr, DecidableEq

/-- The two failure shapes of `parse_content`: a structural scan failure
(`bail!("Error at position {}: {:?}", ...)`) and the distinct empty-result
failure (`bail!("no output generated from XML")`). -/
inductive ParseError where
  | structural (position : Nat) (message : String)
  | noData
  deriving Repr, DecidableEq

/-- The `local_name` operation of the XML reader: the bytes after the first colon when a colon
is present, the whole name otherwise.  (`End` events are matched on their
local name in the source.) -/
def localName (s : String) : String :=
  if ':' ∈ s.data then String.mk ((s.data.dropWhile (fun c => ¬ c = ':')).drop 1) else s

/-- Last-wins attribute lookup: models filling a `HashMap` from the
attribute iterator and reading one key (and equally the source assignment
loops over the attribute iterator). -/
def attrGet (attrs : List (String × String)) (k : String) : Option String :=
  attrs.foldl (fun acc kv => if kv.1 = k then some kv.2 else acc) none

/-- Rust `"...".parse::<bool>().unwrap_or(false)`: only the literal "true" and
"false" parse; everything else falls back to `false`. -/
def parseBool (s : String) : Bool :=
  if s = "true" then true else if s = "false" then false else false

/-- Value of one ASCII-digit string read most-significant first. -/
def digitsToNat (cs : List Char) : Nat :=
  cs.foldl (fun acc c => acc * 10 + (c.toNat - 48)) 0

/-- Rust `str::parse::<u32>()`: an optional leading plus sign, then one or more
ASCII digits, value at most 2^32 - 1; anything else fails. -/
def parseU32 (s : String) : Option Nat :=
  let cs := match s.data with
    | '+' :: rest => rest
    | cs => cs
  if ¬ cs = [] ∧ cs.all (fun c => '0' ≤ c ∧ c ≤ '9') ∧ digitsToNat cs < 4294967296 then
    some (digitsToNat cs)
  else none

/-- The chain `attr_map.get(..).map(|b| ...parse().unwrap_or(0)).unwrap_or(0)`: a
weapon counter defaults to 0 when its attribute is absent or unparsable. -/
def attrNum (o : Option String) : Nat :=
  match o with
  | some s => (parseU32 s).getD 0
  | none => 0

/-- The synthesized score for a player closed outside any team: the value of
the own "Score" statistic of the player when present, the empty string
otherwise. -/
def playerScore (p : Player) : String :=
  match p.stats.find? (fun nv => nv.1 == "Score") with
  | some nv => nv.2
  | none => ""

/-- The transient state of the parsing loop: the `Match` being built plus the
optional currently-open team and player. -/
structure ParserState where
  gameMatch : Match
  currentTeam : Option Team
  currentPlayer : Option Player
  deriving Repr, DecidableEq

/-- The state at loop entry: a default `Match`, no open team, no open
player. -/
def initState : ParserState :=
  { gameMatch := {}, currentTeam := none, currentPlayer := none }

/-- The attribute loop of the `match` start handler: assign the map, type,
duration and team-game fields from the yielded attributes, ignoring any
other key. -/
def applyMatchAttrs : Match → List (String × String) → Match
  | gm, [] => gm
  | gm, kv :: rest =>
    applyMatchAttrs
      (if kv.1 = "map" then { gm with map := kv.2 }
       else if kv.1 = "type" then { gm with match_type := kv.2 }
       else if kv.1 = "duration" then { gm with duration := kv.2 }
       else if kv.1 = "isTeamGame" then { gm with is_team_game := parseBool kv.2 }
       else gm)
      rest

/-- The attribute loop of the `team` start handler: capture the `score`
attribute into the team. -/
def applyTeamAttrs : Team → List (String × String) → Team
  | t, [] => t
  | t, kv :: rest =>
    applyTeamAttrs (if kv.1 = "score" then { t with score := kv.2 } else t) rest

/-- A new open team: a default team with its score from the attributes. -/
def teamFromAttrs (attrs : List (String × String)) : Team :=
  applyTeamAttrs ({} : Team) attrs

/-- The attribute loop of the `player` start handler: capture the `name`
attribute into the player. -/
def applyPlayerAttrs : Player → List (String × String) → Player
  | p, [] => p
  | p, kv :: rest =>
    applyPlayerAttrs (if kv.1 = "name" then { p with name := kv.2 } else p) rest

/-- A new open player: a default player with its name from the attributes. -/
def playerFromAttrs (attrs : List (String × String)) : Player :=
  applyPlayerAttrs ({} : Player) attrs

/-- One iteration of the `parse_content` event loop on a non-error event. -/
def step (st : ParserState) (ev : XmlEvent) : ParserState :=
  match ev with
  | XmlEvent.start name attrs =>
    if name = "match" then
      { st with gameMatch := applyMatchAttrs st.gameMatch attrs }
    else if name = "team" then
      { st with currentTeam := some (teamFromAttrs attrs) }
    else if name = "player" then
      { st with currentPlayer := some (playerFromAttrs attrs) }
    else st
  | XmlEvent.endEl name =>
    if localName name = "team" then
      match st.currentTeam with
      | some team =>
        { st with currentTeam := none,
                  gameMatch := { st.gameMatch with teams := st.gameMatch.teams ++ [team] } }
      | none => st
    else if localName name = "player" then
      match st.currentPlayer with
      | some player =>
        match st.currentTeam with
        | some team =>
          { st with currentPlayer := none,
                    currentTeam := some { team with players := team.players ++ [player] } }
        | none =>
          { st with currentPlayer := none,
                    gameMatch := { st.gameMatch with teams := (st.gameMatch.teams ++
                      [{ score := playerScore player, players := [player] }]) } }
      | none => st
    else st
  | XmlEvent.empty name attrs =>
    if name = "stat" then
      match attrGet attrs "name", attrGet attrs "value" with
      | some n, some v =>
        if BANNED_STATS.contains n then st
        else
          match st.currentPlayer with
          | some p => { st with currentPlayer := some { p with stats := p.stats ++ [(n, v)] } }
          | none => st
      | some _, none => st
      | none, _ => st
    else if name = "weapon" then
      match attrGet attrs "name" with
      | some n =>
        let weapon : Weapon :=
          { name := n,
            hits := attrNum (attrGet attrs "hits"),
            shots := attrNum (attrGet attrs "shots"),
            kills := attrNum (attrGet attrs "kills") }
        match st.currentPlayer with
        | some p => { st with currentPlayer := some { p with weapons := p.weapons ++ [weapon] } }
        | none => st
      | none => st
    else st
  | XmlEvent.err _ _ => st
  | XmlEvent.other => st

/-- The event loop: bail out with a structural failure on a reader error,
otherwise fold `step` over the events until end of input. -/
def processEvents : ParserState → List XmlEvent → Except ParseError ParserState
  | st, [] => Except.ok st
  | _, XmlEvent.err p msg :: _ => Except.error (ParseError.structural p msg)
  | st, ev :: rest => processEvents (step st ev) rest

/-- Function `parse_content` over the event stream: run the loop, then fail with the
empty-result failure when both the map name and the team list are empty. -/
def parse_content (evs : List XmlEvent) : Except ParseError Match :=
  match processEvents initState evs with
  | Except.error e => Except.error e
  | Except.ok st =>
    if st.gameMatch.map.isEmpty && st.gameMatch.teams.isEmpty then
      Except.error ParseError.noData
    else Except.ok st.gameMatch

/-- The final loop state when no reader error occurs. -/
def scanFinal (evs : List XmlEvent) : ParserState :=
  evs.foldl step initState

/-- Whether an event is a reader error. -/
def XmlEvent.isErr : XmlEvent → Bool
  | XmlEvent.err _ _ => true
  | _ => false

/-- No statistic pair of the player carries a denylisted name. -/
def statOkPlayer (p : Player) : Prop :=
  ∀ nv ∈ p.stats, BANNED_STATS.contains nv.1 = false

/-- Every player of the team satisfies `statOkPlayer`. -/
def statOkTeam (t : Team) : Prop :=
  ∀ p ∈ t.players, statOkPlayer p

/-- No denylisted statistic name anywhere in the loop state: not in the
finished teams, not in the open team, not in the open player. -/
def statOkState (st : ParserState) : Prop :=
  (∀ t ∈ st.gameMatch.teams, statOkTeam t) ∧
    (∀ t, st.currentTeam = some t → statOkTeam t) ∧
    (∀ p, st.currentPlayer = some p → statOkPlayer p)

theorem data_push (s : String) (c : Char) : (s.push c).data = s.data ++ [c] := by
  cases s
  rfl

theorem escape_foldl (l : List Char) (acc : String) :
    l.foldl (fun escaped_message c =>
        (if isReserved c then escaped_message.push '\x5c' else escaped_message).push c) acc =
      String.mk (acc.data ++ escapeChars l) := by
  induction l generalizing acc with
  | nil =>
    cases acc
    simp [escapeChars]
  | cons c rest ih =>
    rw [List.foldl_cons, ih]
    cases hr : isReserved c <;>
      simp [escapeChars, hr, data_push, List.append_assoc]

theorem escape_markdown_data (s : String) :
    (escape_markdown s).data = escapeChars s.data := by
  rw [escape_markdown, escape_foldl]
  rfl

theorem escapeChars_eq_flatten (l : List Char) :
    escapeChars l = (l.map (fun c => if isReserved c then ['\x5c', c] else [c])).flatten := by
  induction l with
  | nil => rfl
  | cons c rest ih =>
    cases hr : isReserved c <;> simp [escapeChars, hr, ih]

theorem string_ext (s t : String) (h : s.data = t.data) : s = t := by
  cases s
  cases t
  exact congrArg String.mk (by simpa using h)

theorem escape_markdown_eq_spec (s : String) : escape_markdown s = escapeSpec s := by
  refine string_ext _ _ ?_
  rw [escape_markdown_data, escapeSpec, escapeChars_eq_flatten]

theorem escapeChars_backslash (l : List Char) :
    ∀ (i : Nat) (c : Char), (escapeChars l)[i]? = some c → isReserved c = true →
      ∃ j, i = j + 1 ∧ (escapeChars l)[j]? = some '\x5c' := by
  induction l with
  | nil =>
    intro i c hc _
    simp [escapeChars] at hc
  | cons d rest ih =>
    intro i c hc hr
    by_cases hd : isReserved d
    · rw [show escapeChars (d :: rest) = '\x5c' :: d :: escapeChars rest by
        simp [escapeChars, hd]] at hc ⊢
      match i with
      | 0 =>
        simp at hc
        subst hc
        exact absurd hr (by decide)
      | 1 =>
        exact ⟨0, rfl, by simp⟩
      | (k + 2) =>
        simp only [List.getElem?_cons_succ] at hc
        obtain ⟨j, hj, hget⟩ := ih k c hc hr
        exact ⟨j + 2, by omega, by simpa using hget⟩
    · rw [show escapeChars (d :: rest) = d :: escapeChars rest by
        simp [escapeChars, hd]] at hc ⊢
      match i with
      | 0 =>
        simp at hc
        subst hc
        exact absurd hr hd
      | (k + 1) =>
        simp only [List.getElem?_cons_succ] at hc
        obtain ⟨j, hj, hget⟩ := ih k c hc hr
        exact ⟨j + 1, by omega, by simpa using hget⟩

/-- C2: in the formatted output every reserved character coming from the
map, match type, duration, team score, statistic name, statistic value or
weapon name is immediately preceded by a backslash, every other character of
those fields passes through unchanged, and the player name is emitted
verbatim: `escape_markdown` coincides with the per-character spec rule,
every reserved character of its output is preceded by a backslash, the
formatter applies it to exactly those fields, and the player name is
embedded unescaped. -/
theorem escaping_spec :
    (∀ s : String, escape_markdown s = escapeSpec s) ∧
    (∀ (s : String) (i : Nat) (c : Char),
        (escape_markdown s).data[i]? = some c → isReserved c = true →
        ∃ j, i = j + 1 ∧ (escape_markdown s).data[j]? = some '\x5c') ∧
    (∀ p : Player, ∃ rest : String,
        formatPlayer p = "```\nPlayer: " ++ p.name ++ "\n" ++ rest) ∧
    (∀ m : Match, ∃ rest : String,
        format_match_report m =
          "*Match concluded*\n" ++ "Map: " ++ escape_markdown m.map ++ " \\| Type: " ++
            escape_markdown m.match_type ++ " \\| Duration: " ++ escape_markdown m.duration ++
            "\n\n" ++ rest) ∧
    (∀ (i : Nat) (t : Team), ∃ rest : String,
        formatTeam true i t =
          "*" ++ teamLabel i ++ "*: *" ++ escape_markdown t.score ++ "*\n" ++ rest) ∧
    (∀ nv : String × String,
        formatStat nv = escape_markdown nv.1 ++ ": " ++ escape_markdown nv.2 ++ "\n") ∧
    (∀ w : Weapon, ∃ rest : String, formatWeapon w = escape_markdown w.name ++ rest) := by
  refine ⟨escape_markdown_eq_spec, ?_, ?_, ?_, ?_, ?_, ?_⟩
  · intro s i c hc hr
    rw [escape_markdown_data] at hc ⊢
    exact escapeChars_backslash s.data i c hc hr
  · intro p
    refine ⟨String.join (p.stats.map formatStat) ++
      ((if p.weapons.isEmpty then "" else "Weapons: \n" ++ String.join (p.weapons.map formatWeapon)) ++
        "```\n"), ?_⟩
    simp [formatPlayer, String.append_assoc]
  · intro m
    refine ⟨String.join (m.teams.enum.map (fun it => formatTeam m.is_team_game it.1 it.2)), ?_⟩
    simp [format_match_report, String.append_assoc]
  · intro i t
    refine ⟨String.join (t.players.map formatPlayer), ?_⟩
    simp [formatTeam, String.append_assoc]
  · intro nv
    rfl
  · intro w
    refine ⟨": Shots: " ++ toString w.shots ++ " \\| Acc. " ++ toString (accuracy w) ++
      "% \\| Kills: " ++ toString w.kills ++ "\n", ?_⟩
    simp [formatWeapon, String.append_assoc]

/-- Witness for C2: in the escaped form of "*", the reserved character at
index 1 is preceded by the backslash at index 0. -/
theorem escaping_spec_witness :
    ∃ j, 1 = j + 1 ∧ (escape_markdown "*").data[j]? = some '\x5c' :=
  escaping_spec.2.1 "*" 1 '*' (by decide) (by decide)

/-- C5: the computed accuracy never exceeds 100 — it is exactly 100 when
hits ≥ shots and hits > 0, and at most 100 in every other case, the
wrap-around of the 32-bit product included. -/
theorem accuracy_le_100 (w : Weapon) :
    accuracy w ≤ 100 ∧ (w.shots ≤ w.hits → 0 < w.hits → accuracy w = 100) := by
  constructor
  · rw [accuracy]
    by_cases h1 : w.hits ≥ w.shots ∧ w.hits > 0
    · simp [h1]
    · rw [if_neg h1]
      by_cases h2 : w.shots > 0
      · rw [if_pos h2]
        have hle : w.hits ≤ w.shots := by
          rcases Nat.lt_or_ge w.hits w.shots with h | h
          · exact Nat.le_of_lt h
          · rcases Nat.eq_zero_or_pos w.hits with h0 | h0
            · omega
            · exact absurd ⟨h, h0⟩ h1
        have hmod : (w.hits * 100) % 4294967296 ≤ w.shots * 100 :=
          le_trans (Nat.mod_le _ _) (Nat.mul_le_mul_right 100 hle)
        calc (w.hits * 100) % 4294967296 / w.shots
            ≤ w.shots * 100 / w.shots := Nat.div_le_div_right hmod
          _ = 100 := Nat.mul_div_cancel_left 100 h2
          _ ≤ 100 := le_refl 100
      · simp [h2]
  · intro hge hpos
    rw [accuracy, if_pos ⟨hge, hpos⟩]

/-- Witness for C5: hits = 50 against shots = 40 displays exactly 100, not
125. -/
theorem accuracy_le_100_witness :
    accuracy { name := "RG", hits := 50, shots := 40, kills := 3 } = 100 :=
  (accuracy_le_100 { name := "RG", hits := 50, shots := 40, kills := 3 }).2
    (by decide) (by decide)

/-- Counterexample to C1 as stated: at hits = 2^30 and shots = 2^31 the
32-bit product wraps to 0, so the displayed accuracy is 0 while the claimed
exact formula gives 50. -/
theorem accuracy_claim_counterexample :
    accuracy { name := "MG", hits := 1073741824, shots := 2147483648, kills := 0 } = 0 ∧
    spec_accuracy { name := "MG", hits := 1073741824, shots := 2147483648, kills := 0 } = 50 := by
  constructor <;> norm_num [accuracy, spec_accuracy]

/-- C1 (amended): whenever the 32-bit product hits × 100 does not overflow —
in particular for every hits ≤ 42949672 — the displayed accuracy equals the
claimed formula: 100 if hits ≥ shots and hits > 0, else
floor(hits × 100 / shots) if shots > 0, else 0. -/
theorem accuracy_eq_spec_of_no_overflow (w : Weapon) (h : w.hits * 100 < 4294967296) :
    accuracy w = spec_accuracy w := by
  rw [accuracy, spec_accuracy, Nat.mod_eq_of_lt h]

/-- Witness for C1: hits = 13, shots = 29 displays exactly 44. -/
theorem accuracy_eq_spec_of_no_overflow_witness :
    accuracy { name := "MG", hits := 13, shots := 29, kills := 2 } = 44 :=
  (accuracy_eq_spec_of_no_overflow { name := "MG", hits := 13, shots := 29, kills := 2 }
    (by decide)).trans (by decide)

/-- C8: the formatter is total — for every `Match` value it returns a
string, which always extends the fixed header; there is no failure path. -/
theorem format_match_report_total (m : Match) :
    ∃ rest : String, format_match_report m = "*Match concluded*\n" ++ rest := by
  refine ⟨"Map: " ++ escape_markdown m.map ++ " \\| Type: " ++ escape_markdown m.match_type ++
    " \\| Duration: " ++ escape_markdown m.duration ++ "\n\n" ++
    String.join (m.teams.enum.map (fun it => formatTeam m.is_team_game it.1 it.2)), ?_⟩
  simp only [format_match_report, String.append_assoc]

theorem localName_player : localName "player" = "player" := by decide

theorem localName_team : localName "team" = "team" := by decide

theorem playerScore_of_no_score (p : Player) (h : ∀ nv ∈ p.stats, ¬ nv.1 = "Score") :
    playerScore p = "" := by
  have hf : p.stats.find? (fun nv => nv.1 == "Score") = none :=
    List.find?_eq_none.mpr (fun x hx => by simpa using h x hx)
  rw [playerScore, hf]

theorem find?_score_append (l1 : List (String × String)) (v : String)
    (l2 : List (String × String)) (h : ∀ nv ∈ l1, ¬ nv.1 = "Score") :
    (l1 ++ ("Score", v) :: l2).find? (fun nv => nv.1 == "Score") = some ("Score", v) := by
  induction l1 with
  | nil =>
    rw [List.nil_append, List.find?_cons_of_pos]
    rfl
  | cons x rest ih =>
    rw [List.cons_append, List.find?_cons_of_neg, ih]
    · intro nv hnv
      exact h nv (List.mem_cons_of_mem x hnv)
    · simpa using h x (List.mem_cons_self x rest)

theorem playerScore_of_score (p : Player) (l1 : List (String × String)) (v : String)
    (l2 : List (String × String)) (hs : p.stats = l1 ++ ("Score", v) :: l2)
    (h : ∀ nv ∈ l1, ¬ nv.1 = "Score") : playerScore p = v := by
  rw [playerScore, hs, find?_score_append l1 v l2 h]

/-- C4: closing a player element while no team is open appends to the match
exactly one synthesized team containing exactly that player, whose score is
the value of the own "Score" statistic of the player when present and the
empty string otherwise. -/
theorem close_player_no_team (st : ParserState) (p : Player)
    (hT : st.currentTeam = none) (hP : st.currentPlayer = some p) :
    step st (XmlEvent.endEl "player") =
      { st with currentPlayer := none,
                gameMatch := { st.gameMatch with teams := (st.gameMatch.teams ++
                  [{ score := playerScore p, players := [p] }]) } } ∧
    ((∀ nv ∈ p.stats, ¬ nv.1 = "Score") → playerScore p = "") ∧
    (∀ (l1 : List (String × String)) (v : String) (l2 : List (String × String)),
        p.stats = l1 ++ ("Score", v) :: l2 → (∀ nv ∈ l1, ¬ nv.1 = "Score") →
        playerScore p = v) := by
  refine ⟨?_, playerScore_of_no_score p, playerScore_of_score p⟩
  simp [step, localName_player, hT, hP]

/-- Witness for C4: closing the player "A" carrying the statistic
("Score", "9") outside any team appends one synthesized team scored "9"
holding exactly that player. -/
theorem close_player_no_team_witness :
    step ⟨⟨"", "", "", false, []⟩, none, some ⟨"A", [("Score", "9")], []⟩⟩
        (XmlEvent.endEl "player") =
      ⟨⟨"", "", "", false, [⟨"9", [⟨"A", [("Score", "9")], []⟩]⟩]⟩, none, none⟩ :=
  ((close_player_no_team ⟨⟨"", "", "", false, []⟩, none, some ⟨"A", [("Score", "9")], []⟩⟩
      ⟨"A", [("Score", "9")], []⟩ rfl rfl).1).trans (by decide)

/-- C9: closing a player element while a team is open appends the player to
that open team and changes nothing else — the finished teams are untouched,
no team is synthesized, and the open team keeps the score captured from its
own score attribute. -/
theorem close_player_with_team (st : ParserState) (t : Team) (p : Player)
    (hT : st.currentTeam = some t) (hP : st.currentPlayer = some p) :
    step st (XmlEvent.endEl "player") =
      { st with currentPlayer := none,
                currentTeam := some { t with players := t.players ++ [p] } } ∧
    (step st (XmlEvent.endEl "player")).gameMatch = st.gameMatch ∧
    (∃ t2 : Team, (step st (XmlEvent.endEl "player")).currentTeam = some t2 ∧
        t2.score = t.score ∧ t2.players = t.players ++ [p]) := by
  have h1 : step st (XmlEvent.endEl "player") =
      { st with currentPlayer := none,
                currentTeam := some { t with players := t.players ++ [p] } } := by
    simp [step, localName_player, hT, hP]
  exact ⟨h1, by rw [h1], ⟨{ t with players := t.players ++ [p] }, by rw [h1], rfl, rfl⟩⟩

/-- Witness for C9: closing player "B" inside a team scored "5" appends the
player to that team; the team keeps score "5" even though the player carries
a disagreeing "Score" statistic, and no team is synthesized. -/
theorem close_player_with_team_witness :
    step ⟨⟨"", "", "", false, []⟩, some ⟨"5", []⟩, some ⟨"B", [("Score", "7")], []⟩⟩
        (XmlEvent.endEl "player") =
      ⟨⟨"", "", "", false, []⟩, some ⟨"5", [⟨"B", [("Score", "7")], []⟩]⟩, none⟩ :=
  ((close_player_with_team
      ⟨⟨"", "", "", false, []⟩, some ⟨"5", []⟩, some ⟨"B", [("Score", "7")], []⟩⟩
      ⟨"5", []⟩ ⟨"B", [("Score", "7")], []⟩ rfl rfl).1).trans (by decide)

/-- C7: a self-closing weapon element with a name attribute and an open
player appends exactly one weapon whose hits, shots and kills each
independently come from their own attribute via the defaulting parse
(`attrNum`): 0 when the attribute is absent or unparsable, the parsed value
otherwise; with no name attribute or no open player nothing changes, and no
case fails the parse. -/
theorem weapon_event_spec (st : ParserState) (attrs : List (String × String)) :
    (∀ (n : String) (p : Player),
        attrGet attrs "name" = some n → st.currentPlayer = some p →
        step st (XmlEvent.empty "weapon" attrs) =
          { st with currentPlayer := some { p with weapons := (p.weapons ++
              [{ name := n,
                 hits := attrNum (attrGet attrs "hits"),
                 shots := attrNum (attrGet attrs "shots"),
                 kills := attrNum (attrGet attrs "kills") }]) } }) ∧
    (attrGet attrs "name" = none → step st (XmlEvent.empty "weapon" attrs) = st) ∧
    (st.currentPlayer = none → step st (XmlEvent.empty "weapon" attrs) = st) ∧
    attrNum none = 0 ∧
    (∀ s : String, parseU32 s = none → attrNum (some s) = 0) ∧
    (∀ (s : String) (k : Nat), parseU32 s = some k → attrNum (some s) = k) ∧
    parseU32 "13" = some 13 ∧ parseU32 "007" = some 7 ∧ parseU32 "abc" = none ∧
    parseU32 "" = none ∧ parseU32 "4294967296" = none ∧ parseU32 "-1" = none := by
  refine ⟨?_, ?_, ?_, rfl, ?_, ?_, by decide, by decide, by decide, by decide, by decide,
    by decide⟩
  · intro n p hn hp
    simp [step, hn, hp]
  · intro hn
    simp [step, hn]
  · intro hp
    cases hn : attrGet attrs "name" <;> simp [step, hn, hp]
  · intro s hs
    simp [attrNum, hs]
  · intro s k hs
    simp [attrNum, hs]

/-- Witness for C7: a weapon element named "MG" with hits="13", shots="29",
kills="x" appended to the open player parses hits 13, shots 29 and defaults
kills to 0. -/
theorem weapon_event_spec_witness :
    step ⟨⟨"", "", "", false, []⟩, none, some ⟨"A", [], []⟩⟩
        (XmlEvent.empty "weapon"
          [("name", "MG"), ("hits", "13"), ("shots", "29"), ("kills", "x")]) =
      ⟨⟨"", "", "", false, []⟩, none, some ⟨"A", [], [⟨"MG", 13, 29, 0⟩]⟩⟩ :=
  ((weapon_event_spec ⟨⟨"", "", "", false, []⟩, none, some ⟨"A", [], []⟩⟩
      [("name", "MG"), ("hits", "13"), ("shots", "29"), ("kills", "x")]).1
    "MG" ⟨"A", [], []⟩ (by decide) rfl).trans (by decide)

theorem processEvents_cons_of_not_err (st : ParserState) (ev : XmlEvent)
    (rest : List XmlEvent) (h : ev.isErr = false) :
    processEvents st (ev :: rest) = processEvents (step st ev) rest := by
  cases ev with
  | err p m => simp [XmlEvent.isErr] at h
  | start n a => rfl
  | endEl n => rfl
  | empty n a => rfl
  | other => rfl

theorem processEvents_ok_of_no_err (evs : List XmlEvent) :
    ∀ st : ParserState, (∀ ev ∈ evs, ev.isErr = false) →
      processEvents st evs = Except.ok (evs.foldl step st) := by
  induction evs with
  | nil => intro st _; rfl
  | cons ev rest ih =>
    intro st h
    rw [processEvents_cons_of_not_err st ev rest (h ev (List.mem_cons_self ev rest)),
      List.foldl_cons]
    exact ih (step st ev) (fun e he => h e (List.mem_cons_of_mem ev he))

/-- C3: when the scan completes without a reader error, parsing fails with
the distinct empty-result failure exactly when the final map name and team
sequence are both empty, and succeeds whenever the map name is non-empty or
at least one team was produced. -/
theorem parse_empty_result (evs : List XmlEvent) (h : ∀ ev ∈ evs, ev.isErr = false) :
    (parse_content evs = Except.error ParseError.noData ↔
      ((scanFinal evs).gameMatch.map = "" ∧ (scanFinal evs).gameMatch.teams = [])) ∧
    (((scanFinal evs).gameMatch.map ≠ "" ∨ (scanFinal evs).gameMatch.teams ≠ []) →
      ∃ m : Match, parse_content evs = Except.ok m) := by
  have hp : parse_content evs =
      (if (scanFinal evs).gameMatch.map.isEmpty && (scanFinal evs).gameMatch.teams.isEmpty then
        Except.error ParseError.noData
      else Except.ok (scanFinal evs).gameMatch) := by
    rw [parse_content, processEvents_ok_of_no_err evs initState h]
    rfl
  rw [hp]
  by_cases hb : ((scanFinal evs).gameMatch.map.isEmpty &&
      (scanFinal evs).gameMatch.teams.isEmpty) = true
  · have hme : (scanFinal evs).gameMatch.map = "" ∧ (scanFinal evs).gameMatch.teams = [] := by
      rw [Bool.and_eq_true] at hb
      exact ⟨(String.isEmpty_iff _).mp hb.1, List.isEmpty_iff.mp hb.2⟩
    rw [if_pos hb]
    exact ⟨⟨fun _ => hme, fun _ => rfl⟩, fun hor => absurd hme (by tauto)⟩
  · have hme : ¬ ((scanFinal evs).gameMatch.map = "" ∧ (scanFinal evs).gameMatch.teams = []) := by
      intro ⟨h1, h2⟩
      exact hb (by rw [Bool.and_eq_true]
                   exact ⟨(String.isEmpty_iff _).mpr h1, List.isEmpty_iff.mpr h2⟩)
    rw [if_neg hb]
    exact ⟨⟨fun he => absurd he (by simp), fun hc => absurd hc hme⟩,
      fun _ => ⟨(scanFinal evs).gameMatch, rfl⟩⟩

/-- Witness for C3: the empty document yields neither a map name nor a team,
so parsing fails with the empty-result failure. -/
theorem parse_empty_result_witness : parse_content [] = Except.error ParseError.noData :=
  ((parse_empty_result [] (by intro ev hev; simp at hev)).1).mpr ⟨rfl, rfl⟩

/-- C10: the event loop is total — for every finite event stream it
terminates (it is structural recursion on the stream) and returns either a
parsed `Match` or one of the two failure values. -/
theorem parse_content_total (evs : List XmlEvent) :
    (∃ m : Match, parse_content evs = Except.ok m) ∨
      (∃ e : ParseError, parse_content evs = Except.error e) := by
  cases h : parse_content evs with
  | ok m => exact Or.inl ⟨m, rfl⟩
  | error e => exact Or.inr ⟨e, rfl⟩

theorem applyMatchAttrs_teams (attrs : List (String × String)) :
    ∀ gm : Match, (applyMatchAttrs gm attrs).teams = gm.teams := by
  induction attrs with
  | nil => intro gm; rfl
  | cons kv rest ih =>
    intro gm
    rw [applyMatchAttrs, ih]
    split_ifs <;> rfl

theorem applyTeamAttrs_players (attrs : List (String × String)) :
    ∀ t : Team, (applyTeamAttrs t attrs).players = t.players := by
  induction attrs with
  | nil => intro t; rfl
  | cons kv rest ih =>
    intro t
    rw [applyTeamAttrs, ih]
    split_ifs <;> rfl

theorem applyPlayerAttrs_stats (attrs : List (String × String)) :
    ∀ p : Player, (applyPlayerAttrs p attrs).stats = p.stats := by
  induction attrs with
  | nil => intro p; rfl
  | cons kv rest ih =>
    intro p
    rw [applyPlayerAttrs, ih]
    split_ifs <;> rfl

theorem step_statOk (st : ParserState) (ev : XmlEvent) (h : statOkState st) :
    statOkState (step st ev) := by
  obtain ⟨hM, hT, hP⟩ := h
  cases ev with
  | start name attrs =>
    by_cases h1 : name = "match"
    · subst h1
      have he : step st (XmlEvent.start "match" attrs) =
          { st with gameMatch := applyMatchAttrs st.gameMatch attrs } := by
        simp [step]
      rw [he]
      refine ⟨?_, hT, hP⟩
      intro t ht
      rw [applyMatchAttrs_teams] at ht
      exact hM t ht
    · by_cases h2 : name = "team"
      · subst h2
        have he : step st (XmlEvent.start "team" attrs) =
            { st with currentTeam := some (teamFromAttrs attrs) } := by
          simp [step]
        rw [he]
        refine ⟨hM, ?_, hP⟩
        intro t ht
        simp only [Option.some.injEq] at ht
        intro q hq
        rw [← ht, teamFromAttrs, applyTeamAttrs_players] at hq
        simp at hq
      · by_cases h3 : name = "player"
        · subst h3
          have he : step st (XmlEvent.start "player" attrs) =
              { st with currentPlayer := some (playerFromAttrs attrs) } := by
            simp [step, h1, h2]
          rw [he]
          refine ⟨hM, hT, ?_⟩
          intro p hp
          simp only [Option.some.injEq] at hp
          intro nv hnv
          rw [← hp, playerFromAttrs, applyPlayerAttrs_stats] at hnv
          simp at hnv
        · have he : step st (XmlEvent.start name attrs) = st := by
            simp [step, h1, h2, h3]
          rw [he]
          exact ⟨hM, hT, hP⟩
  | endEl name =>
    by_cases h1 : localName name = "team"
    · cases hct : st.currentTeam with
      | none =>
        have he : step st (XmlEvent.endEl name) = st := by
          simp [step, h1, hct]
        rw [he]
        exact ⟨hM, hT, hP⟩
      | some t =>
        have he : step st (XmlEvent.endEl name) =
            { st with currentTeam := none,
                      gameMatch := { st.gameMatch with
                        teams := (st.gameMatch.teams ++ [t]) } } := by
          simp [step, h1, hct]
        rw [he]
        refine ⟨?_, ?_, hP⟩
        · intro t2 ht2
          rcases List.mem_append.mp ht2 with hin | hin
          · exact hM t2 hin
          · rw [List.mem_singleton.mp hin]
            exact hT t hct
        · intro t2 ht2
          simp at ht2
    · by_cases h2 : localName name = "player"
      · cases hcp : st.currentPlayer with
        | none =>
          have he : step st (XmlEvent.endEl name) = st := by
            simp [step, h1, h2, hcp]
          rw [he]
          exact ⟨hM, hT, hP⟩
        | some p =>
          cases hct : st.currentTeam with
          | some t =>
            have he : step st (XmlEvent.endEl name) =
                { st with currentPlayer := none,
                          currentTeam := some { t with players := (t.players ++ [p]) } } := by
              simp [step, h1, h2, hcp, hct]
            rw [he]
            refine ⟨hM, ?_, ?_⟩
            · intro t2 ht2
              simp only [Option.some.injEq] at ht2
              intro q hq
              rw [← ht2] at hq
              rcases List.mem_append.mp hq with hin | hin
              · exact hT t hct q hin
              · rw [List.mem_singleton.mp hin]
                exact hP p hcp
            · intro p2 hp2
              simp at hp2
          | none =>
            have he : step st (XmlEvent.endEl name) =
                { st with currentPlayer := none,
                          gameMatch := { st.gameMatch with
                            teams := (st.gameMatch.teams ++
                              [{ score := playerScore p, players := [p] }]) } } := by
              simp [step, h1, h2, hcp, hct]
            rw [he]
            refine ⟨?_, hT, ?_⟩
            · intro t2 ht2
              rcases List.mem_append.mp ht2 with hin | hin
              · exact hM t2 hin
              · rw [List.mem_singleton.mp hin]
                intro q hq
                rw [List.mem_singleton.mp hq]
                exact hP p hcp
            · intro p2 hp2
              simp at hp2
      · have he : step st (XmlEvent.endEl name) = st := by
          simp [step, h1, h2]
        rw [he]
        exact ⟨hM, hT, hP⟩
  | empty name attrs =>
    by_cases h1 : name = "stat"
    · subst h1
      cases hn : attrGet attrs "name" with
      | none =>
        have he : step st (XmlEvent.empty "stat" attrs) = st := by
          simp [step, hn]
        rw [he]
        exact ⟨hM, hT, hP⟩
      | some n =>
        cases hv : attrGet attrs "value" with
        | none =>
          have he : step st (XmlEvent.empty "stat" attrs) = st := by
            simp [step, hn, hv]
          rw [he]
          exact ⟨hM, hT, hP⟩
        | some v =>
          cases hb : BANNED_STATS.contains n with
          | true =>
            have hb' : n ∈ BANNED_STATS := by simpa using hb
            have he : step st (XmlEvent.empty "stat" attrs) = st := by
              simp [step, hn, hv, hb']
            rw [he]
            exact ⟨hM, hT, hP⟩
          | false =>
            have hb' : ¬ n ∈ BANNED_STATS := by simpa using hb
            cases hcp : st.currentPlayer with
            | none =>
              have he : step st (XmlEvent.empty "stat" attrs) = st := by
                simp [step, hn, hv, hb', hcp]
              rw [he]
              exact ⟨hM, hT, hP⟩
            | some p =>
              have he : step st (XmlEvent.empty "stat" attrs) =
                  { st with currentPlayer := some { p with
                      stats := (p.stats ++ [(n, v)]) } } := by
                simp [step, hn, hv, hb', hcp]
              rw [he]
              refine ⟨hM, hT, ?_⟩
              intro p2 hp2
              simp only [Option.some.injEq] at hp2
              intro nv hnv
              rw [← hp2] at hnv
              rcases List.mem_append.mp hnv with hin | hin
              · exact hP p hcp nv hin
              · rw [List.mem_singleton.mp hin]
                exact hb
    · by_cases h2 : name = "weapon"
      · subst h2
        cases hn : attrGet attrs "name" with
        | none =>
          have he : step st (XmlEvent.empty "weapon" attrs) = st := by
            simp [step, hn]
          rw [he]
          exact ⟨hM, hT, hP⟩
        | some n =>
          cases hcp : st.currentPlayer with
          | none =>
            have he : step st (XmlEvent.empty "weapon" attrs) = st := by
              simp [step, hn, hcp]
            rw [he]
            exact ⟨hM, hT, hP⟩
          | some p =>
            have he : step st (XmlEvent.empty "weapon" attrs) =
                { st with currentPlayer := some { p with weapons := (p.weapons ++
                    [{ name := n,
                       hits := attrNum (attrGet attrs "hits"),
                       shots := attrNum (attrGet attrs "shots"),
                       kills := attrNum (attrGet attrs "kills") }]) } } := by
              simp [step, hn, hcp]
            rw [he]
            refine ⟨hM, hT, ?_⟩
            intro p2 hp2
            simp only [Option.some.injEq] at hp2
            intro nv hnv
            rw [← hp2] at hnv
            exact hP p hcp nv hnv
      · have he : step st (XmlEvent.empty name attrs) = st := by
          simp [step, h1, h2]
        rw [he]
        exact ⟨hM, hT, hP⟩
  | err p m => exact ⟨hM, hT, hP⟩
  | other => exact ⟨hM, hT, hP⟩

theorem processEvents_statOk (evs : List XmlEvent) :
    ∀ st st' : ParserState, processEvents st evs = Except.ok st' → statOkState st →
      statOkState st' := by
  induction evs with
  | nil =>
    intro st st' h hok
    simp only [processEvents] at h
    cases h
    exact hok
  | cons ev rest ih =>
    intro st st' h hok
    cases hev : ev.isErr with
    | false =>
      rw [processEvents_cons_of_not_err st ev rest hev] at h
      exact ih _ _ h (step_statOk st ev hok)
    | true =>
      cases ev <;> simp [XmlEvent.isErr] at hev
      simp [processEvents] at h

theorem initState_statOk : statOkState initState :=
  ⟨fun t ht => by simp [initState] at ht,
   fun t ht => by simp [initState] at ht,
   fun p hp => by simp [initState] at hp⟩

/-- C6: a self-closing stat element appends its (name, value) pair to the
open player exactly when a name attribute, a value attribute and an open
player are all present and the name is not one of the eight denylisted
names; in every other case the state is unchanged, and consequently no
parsed match ever contains a denylisted statistic name. -/
theorem stat_event_spec (st : ParserState) (attrs : List (String × String)) :
    (∀ (n v : String) (p : Player),
        attrGet attrs "name" = some n → attrGet attrs "value" = some v →
        BANNED_STATS.contains n = false → st.currentPlayer = some p →
        step st (XmlEvent.empty "stat" attrs) =
          { st with currentPlayer := some { p with stats := (p.stats ++ [(n, v)]) } }) ∧
    (attrGet attrs "name" = none → step st (XmlEvent.empty "stat" attrs) = st) ∧
    (attrGet attrs "value" = none → step st (XmlEvent.empty "stat" attrs) = st) ∧
    (∀ n : String, attrGet attrs "name" = some n → BANNED_STATS.contains n = true →
        step st (XmlEvent.empty "stat" attrs) = st) ∧
    (st.currentPlayer = none → step st (XmlEvent.empty "stat" attrs) = st) ∧
    (∀ (evs : List XmlEvent) (m : Match), parse_content evs = Except.ok m →
        ∀ t ∈ m.teams, ∀ p ∈ t.players, ∀ nv ∈ p.stats,
          BANNED_STATS.contains nv.1 = false) := by
  refine ⟨?_, ?_, ?_, ?_, ?_, ?_⟩
  · intro n v p hn hv hb hp
    have hb' : ¬ n ∈ BANNED_STATS := by simpa using hb
    simp [step, hn, hv, hb', hp]
  · intro hn
    simp [step, hn]
  · intro hv
    cases hn : attrGet attrs "name" <;> simp [step, hn, hv]
  · intro n hn hbt
    have hb' : n ∈ BANNED_STATS := by simpa using hbt
    cases hv : attrGet attrs "value" <;> simp [step, hn, hv, hb']
  · intro hp
    cases hn : attrGet attrs "name" with
    | none => simp [step, hn]
    | some n =>
      cases hv : attrGet attrs "value" with
      | none => simp [step, hn, hv]
      | some v =>
        by_cases hb : n ∈ BANNED_STATS
        · simp [step, hn, hv, hb]
        · simp [step, hn, hv, hb, hp]
  · intro evs m hm t ht p hp nv hnv
    unfold parse_content at hm
    cases hpe : processEvents initState evs with
    | error e =>
      rw [hpe] at hm
      simp at hm
    | ok stf =>
      rw [hpe] at hm
      simp only [] at hm
      split at hm
      · simp at hm
      · have hmm : stf.gameMatch = m := by
          injection hm
        have hok := processEvents_statOk evs initState stf hpe initState_statOk
        rw [← hmm] at ht
        exact hok.1 t ht p hp nv hnv

/-- Witness for C6: a stat element with name "K" and value "7" (not
denylisted) is appended to the statistics of the open player. -/
theorem stat_event_spec_witness :
    step ⟨⟨"", "", "", false, []⟩, none, some ⟨"A", [], []⟩⟩
        (XmlEvent.empty "stat" [("name", "K"), ("value", "7")]) =
      ⟨⟨"", "", "", false, []⟩, none, some ⟨"A", [("K", "7")], []⟩⟩ :=
  ((stat_event_spec ⟨⟨"", "", "", false, []⟩, none, some ⟨"A", [], []⟩⟩
      [("name", "K"), ("value", "7")]).1 "K" "7" ⟨"A", [], []⟩
      (by decide) (by decide) (by decide) rfl).trans (by decide)

end Q3
